import Mathlib

/-!
Verification development for the wikibench repository.

Shallow embedding of the core of the system: the markdown link parser
(src/game/parser.py), the Wikipedia link recognizer (src/wikipedia/links.py),
the BFS shortest-path finder (src/wikipedia/pathfinder.py), the game loop
(src/game/engine.py), the attempt runner and metrics aggregation
(src/benchmark/attempt.py, src/benchmark/metrics.py) and the orchestrator
result collection (src/benchmark/orchestrator.py).

Strings are modelled as lists of characters (Lean String is a wrapper around
List Char, and List Char keeps every operation kernel-computable).  Python
str.lower is modelled by Char.toLower, which is exact on the ASCII titles
exercised here.  Network and model I/O is abstracted as explicit oracle
functions passed to the embedded code; the per-process link cache of the
pathfinder makes the link fetch a pure function of the normalized title, so
the API plus cache is abstracted as such a function.
-/

/-- Convert a string literal to the character-list representation used
throughout this development. -/
def strL (s : String) : List Char := s.toList

/-- Characters stripped by Python str.strip (ASCII whitespace). -/
def isPySpace (c : Char) : Bool :=
  c = ' ' || c = '\t' || c = '\n' || c = '\r' || c = '\x0b' || c = '\x0c'

/-- Python str.strip: remove leading and trailing whitespace. -/
def pystrip (l : List Char) : List Char :=
  ((l.dropWhile isPySpace).reverse.dropWhile isPySpace).reverse

/-- Python str.replace for single characters. -/
def pyreplace (a b : Char) (l : List Char) : List Char :=
  l.map fun c => if c = a then b else c

/-- Title normalization used by the pathfinder and the engine:
title.lower().replace(underscore, space).strip(). -/
def normalizeT (t : List Char) : List Char :=
  pystrip (pyreplace '_' ' ' (t.map Char.toLower))

/-- Boolean test that pat occurs at the head of l (Python str.startswith). -/
def seqAt : List Char → List Char → Bool
  | [], _ => true
  | _ :: _, [] => false
  | a :: as, b :: bs => a = b && seqAt as bs

/-- Boolean test that pat occurs somewhere in l (Python substring test). -/
def hasSeq (pat : List Char) : List Char → Bool
  | [] => seqAt pat []
  | c :: rest => seqAt pat (c :: rest) || hasSeq pat rest

/-- The part of l before the first occurrence of sep, when sep occurs
(Python s.split(sep)[0] when sep occurs in s). -/
def beforeSeq (sep : List Char) : List Char → Option (List Char)
  | [] => if seqAt sep [] then some [] else none
  | c :: rest =>
    if seqAt sep (c :: rest) then some []
    else (beforeSeq sep rest).map (c :: ·)

/-- The part of l after the first occurrence of sep, when sep occurs. -/
def afterSeq (sep : List Char) : List Char → Option (List Char)
  | [] => if seqAt sep [] then some [] else none
  | c :: rest =>
    if seqAt sep (c :: rest) then some ((c :: rest).drop sep.length)
    else afterSeq sep rest

/-- Python hexadecimal digit value, for percent decoding. -/
def hexVal (c : Char) : Option Nat :=
  if '0' ≤ c ∧ c ≤ '9' then some (c.toNat - '0'.toNat)
  else if 'a' ≤ c ∧ c ≤ 'f' then some (c.toNat - 'a'.toNat + 10)
  else if 'A' ≤ c ∧ c ≤ 'F' then some (c.toNat - 'A'.toNat + 10)
  else none

/-- Models urllib.parse.unquote for the single-byte (ASCII) percent escapes
appearing in the titles considered here; invalid escapes are kept verbatim,
as in Python. -/
def unquote : List Char → List Char
  | '%' :: a :: b :: rest =>
    match hexVal a, hexVal b with
    | some x, some y => Char.ofNat (16 * x + y) :: unquote rest
    | _, _ => '%' :: unquote (a :: b :: rest)
  | c :: rest => c :: unquote rest
  | [] => []

/-- Double-quote and single-quote characters, without quote literals in
string position. -/
def dquoteC : Char := '"'

def squoteC : Char := Char.ofNat 39

/-- src/game/parser.py strip_title_attribute (the identical helper also
appears in src/wikipedia/links.py): drop a trailing quoted title attribute
from a markdown link target, then strip whitespace. -/
def strip_title_attribute (href : List Char) : List Char :=
  if hasSeq [' ', dquoteC] href then
    pystrip ((beforeSeq [' ', dquoteC] href).getD href)
  else if hasSeq [' ', squoteC] href then
    pystrip ((beforeSeq [' ', squoteC] href).getD href)
  else
    pystrip href

/-- One step of markdown-link matching at the current position: the regex
\x5b([^\x5d]+)\x5d\(([^)]+)\) applied at the character after an opening
square bracket.  Returns the link text, the target, and the remainder of the
input after the match.  Both character classes exclude their closing
delimiter, so the greedy match is the run up to the next delimiter and the
regex engine never backtracks into a successful alternative. -/
def tryLink (rest : List Char) : Option (List Char × List Char × List Char) :=
  let text := rest.takeWhile (· ≠ ']')
  let r1 := rest.dropWhile (· ≠ ']')
  match text, r1 with
  | [], _ => none
  | _ :: _, ']' :: '(' :: r2 =>
    let href := r2.takeWhile (· ≠ ')')
    let r3 := r2.dropWhile (· ≠ ')')
    match href, r3 with
    | [], _ => none
    | _ :: _, ')' :: rem => some (text, href, rem)
    | _, _ => none
  | _, _ => none

/-- Models re.findall of the markdown link pattern over the input: scan left
to right, at each opening bracket attempt a full link match, and continue
after the match on success or at the next character on failure.  The fuel
argument only serves termination: a successful tryLink consumes at least the
two brackets around the link text, so the remainder is always shorter than
the scanned input and fuel equal to the input length never runs out. -/
def findLinksAux : Nat → List Char → List (List Char × List Char)
  | 0, _ => []
  | fuel + 1, l =>
    match l with
    | [] => []
    | c :: rest =>
      if c = '[' then
        match tryLink rest with
        | some (t, hr, rem) => (t, hr) :: findLinksAux fuel rem
        | none => findLinksAux fuel rest
      else
        findLinksAux fuel rest

def findLinks (l : List Char) : List (List Char × List Char) :=
  findLinksAux l.length l

/-- The lenient fallback test of src/game/parser.py parse_response: the raw
link target contains wikipedia.org or starts with /wiki/. -/
def wikiLike (href : List Char) : Bool :=
  hasSeq (strL "wikipedia.org") href || seqAt (strL "/wiki/") href

/-- src/game/parser.py parse_response: strip the response, find all markdown
links; with exactly one match return it (target stripped of any title
attribute); otherwise return the first wikipedia-looking match, stripped; on
zero matches, or several with none wikipedia-looking, return none. -/
def parse_response (response : List Char) : Option (List Char × List Char) :=
  let ms := findLinks (pystrip response)
  match ms with
  | [m] => some (m.1, strip_title_attribute m.2)
  | _ =>
    match ms.find? (fun m => wikiLike m.2) with
    | some m => some (m.1, strip_title_attribute m.2)
    | none => none

/-- The namespace markers rejected by src/wikipedia/links.py
normalize_wikipedia_url. -/
def specialNamespaceMarks : List (List Char) :=
  [strL "Special:", strL "Wikipedia:", strL "Help:", strL "Category:",
   strL "Portal:", strL "Template:", strL "Template_talk:", strL "Talk:",
   strL "User:", strL "User_talk:", strL "File:", strL "MediaWiki:",
   strL "Module:", strL "Draft:"]

/-- src/wikipedia/links.py normalize_wikipedia_url: recognize a same-site
Wikipedia article link, rejecting special and meta namespaces and external
URLs, and return the decoded article title. -/
def normalize_wikipedia_url (href : List Char) : Option (List Char) :=
  let title? : Option (List Char) :=
    if seqAt (strL "/wiki/") href then some (href.drop 6)
    else if seqAt (strL "//en.wikipedia.org/wiki/") href then some (href.drop 24)
    else if seqAt (strL "https://en.wikipedia.org/wiki/") href then some (href.drop 30)
    else if seqAt (strL "http://en.wikipedia.org/wiki/") href then some (href.drop 29)
    else none
  match title? with
  | none => none
  | some t0 =>
    let t1 := if '#' ∈ t0 then t0.takeWhile (· ≠ '#') else t0
    if t1 = [] then none
    else if specialNamespaceMarks.any (fun p => seqAt p t1) then none
    else if seqAt (strL "//") t1 || seqAt (strL "http") t1 then none
    else some (pyreplace '_' ' ' (unquote t1))

/-- src/wikipedia/links.py extract_links_from_markdown: all markdown links
whose text and target are nonblank and whose stripped target is recognized
as a Wikipedia article link.  The kept pair carries the stripped target. -/
def extract_links_from_markdown (markdown : List Char) : List (List Char × List Char) :=
  (findLinks markdown).filterMap fun m =>
    if pystrip m.1 = [] ∨ pystrip m.2 = [] then none
    else
      let href := strip_title_attribute m.2
      if normalize_wikipedia_url href = none then none
      else some (m.1, href)

/-- Models urllib.parse.urlparse(url).path for the URL shapes produced in
this system (absolute http(s) URLs, scheme-relative URLs and relative
references; no parameter handling): drop the fragment and the query, then
drop the scheme and network location when present. -/
def urlPath (u : List Char) : List Char :=
  let u1 := u.takeWhile (· ≠ '#')
  let u2 := u1.takeWhile (· ≠ '?')
  if hasSeq (strL "://") u2 then
    ((afterSeq (strL "://") u2).getD u2).dropWhile (· ≠ '/')
  else if seqAt (strL "//") u2 then
    (u2.drop 2).dropWhile (· ≠ '/')
  else u2

/-- The part of l after the last occurrence of sep, or l itself when sep
does not occur (Python s.split(sep)[-1]).  Fuel only serves termination:
for nonempty sep each rewrite strictly shortens the list, so fuel equal to
the length never runs out. -/
def lastAfterSeqAux (sep : List Char) : Nat → List Char → List Char
  | 0, l => l
  | fuel + 1, l =>
    match afterSeq sep l with
    | none => l
    | some r => lastAfterSeqAux sep fuel r

def lastAfterSeq (sep l : List Char) : List Char :=
  lastAfterSeqAux sep l.length l

/-- src/wikipedia/links.py title_from_url: recognized article links resolve
through normalize_wikipedia_url; otherwise take the URL path after the last
/wiki/ segment, decode it and cut any fragment; a URL without /wiki/ in its
path is returned unchanged. -/
def title_from_url (url : List Char) : List Char :=
  match normalize_wikipedia_url url with
  | some t => t
  | none =>
    let path := urlPath url
    if hasSeq (strL "/wiki/") path then
      let t0 := lastAfterSeq (strL "/wiki/") path
      let t1 := pyreplace '_' ' ' (unquote t0)
      if '#' ∈ t1 then t1.takeWhile (· ≠ '#') else t1
    else url

/-- src/wikipedia/pathfinder.py classify_step: compare the remaining
distance before and after a move. -/
def classify_step (distance_before distance_after : Int) : List Char :=
  if distance_after < distance_before then strL "forward"
  else if distance_after > distance_before then strL "backwards"
  else strL "neutral"

/-! ## Shortest-path finder (src/wikipedia/pathfinder.py) -/

/-- The body of the for-loop over a fetched link set in compute_shortest_path
after the target test: append each link not yet visited to the queue at depth
d1 and mark it visited.  linkSets values are already normalized (the cache
normalizes every link before storing it). -/
def addLinks (links : List (List Char)) (d1 : Nat)
    (visited : List (List Char)) : List (List Char × Nat) × List (List Char) :=
  links.foldl
    (fun acc link =>
      if link ∈ acc.2 then acc
      else (acc.1 ++ [(link, d1)], link :: acc.2))
    ([], visited)

/-- The BFS while-loop of compute_shortest_path.  The queue holds normalized
titles (the source enqueues an original-case spelling whose normalization is
exactly the queued key, and normalizes again on use, so queueing the
normalized key is observationally identical).  Entries at the depth bound are
popped without counting against the page cap; expanding a page fetches its
link set, returns depth + 1 when the target occurs in it, and otherwise
enqueues the unvisited links. -/
def bfsLoop (linkSets : List Char → List (List Char)) (target : List Char)
    (maxDepth : Nat) (queue : List (List Char × Nat))
    (visited : List (List Char)) (pagesExplored maxPages : Nat) : Nat :=
  match queue with
  | [] => 999
  | (cur, depth) :: rest =>
    if h : pagesExplored < maxPages then
      if maxDepth ≤ depth then
        bfsLoop linkSets target maxDepth rest visited pagesExplored maxPages
      else
        let links := linkSets cur
        if target ∈ links then depth + 1
        else
          let qv := addLinks links (depth + 1) visited
          bfsLoop linkSets target maxDepth (rest ++ qv.1) qv.2
            (pagesExplored + 1) maxPages
    else 999
termination_by (maxPages - pagesExplored, queue.length)
decreasing_by
  · apply Prod.Lex.right
    simp
  · apply Prod.Lex.left
    omega

/-- src/wikipedia/pathfinder.py compute_shortest_path: distance 0 for
normalization-equal titles, otherwise BFS from the start with the given
depth bound and a hard cap of 100 expanded pages, returning the sentinel
999 when no path is found within the budget. -/
def compute_shortest_path (linkSets : List Char → List (List Char))
    (start_title target_title : List Char) (maxDepth : Nat := 5) : Nat :=
  let start := normalizeT start_title
  let target := normalizeT target_title
  if start = target then 0
  else bfsLoop linkSets target maxDepth [(start, 0)] [start] 0 100

/-- src/wikipedia/pathfinder.py get_remaining_distance: a shortest-path
query from the current page to the target with depth bound 10. -/
def get_remaining_distance (linkSets : List Char → List (List Char))
    (current_title target_title : List Char) : Nat :=
  compute_shortest_path linkSets current_title target_title 10

/-! ## Game loop (src/game/engine.py) -/

/-- src/config.py MAX_CLICKS. -/
def MAX_CLICKS : Nat := 30

/-- src/config.py TRIMMED_DROP_COUNT. -/
def TRIMMED_DROP_COUNT : Nat := 3

/-- src/config.py WIKIPEDIA_BASE_URL. -/
def WIKIPEDIA_BASE_URL : List Char := strL "https://en.wikipedia.org/wiki/"

/-- src/game/engine.py GameStep.  The wall-clock timestamp_utc field is not
modelled (real time is outside a shallow embedding); no claim refers to it. -/
structure GameStep where
  step_index : Nat
  current_page_title : List Char
  current_page_url : List Char
  chosen_link_markdown : List Char
  chosen_target_title : List Char
  chosen_target_url : List Char
deriving Repr, DecidableEq

/-- src/game/engine.py GameResult. -/
structure GameResult where
  start_title : List Char
  target_title : List Char
  solved : Bool
  total_clicks : Nat
  steps : List GameStep
  path : List (List Char)
deriving Repr, DecidableEq

/-- The I/O environment of one game: fetching an article body may fail
(exception modelled as none), and the n-th policy call returns free text or
none when the API yields no content.  Prompt construction does not influence
the embedded control flow, so the oracle is indexed by call number. -/
structure PlayEnv where
  fetchMarkdown : List Char → Option (List Char)
  chat : Nat → Option (List Char)

/-- src/game/engine.py WikiGameEngine titles-match helper: normalization
equality of titles. -/
def titles_match (t1 t2 : List Char) : Bool :=
  normalizeT t1 = normalizeT t2

/-- The markdown rendering of the chosen link recorded in a GameStep. -/
def mdLink (text url : List Char) : List Char :=
  '[' :: text ++ ']' :: '(' :: url ++ [')']

/-- Python str.rstrip with a slash argument: drop every trailing slash. -/
def rstripSlash (l : List Char) : List Char :=
  (l.reverse.dropWhile (· = '/')).reverse

/-- The per-move retry loop of src/game/engine.py play: up to retries policy
calls; a missing response or unparseable response consumes a retry; a parsed
link is accepted when its target is a valid on-page URL, else when some
valid URL agrees with it after trailing slashes are removed (the source
iterates a Python set there; this model scans the extraction order, the
natural determinization).  Returns the accepted link, if any, and the next
policy call index. -/
def findRetry (env : PlayEnv) (validUrls : List (List Char)) :
    Nat → Nat → Option (List Char × List Char) × Nat
  | idx, 0 => (none, idx)
  | idx, retries + 1 =>
    match env.chat idx with
    | none => findRetry env validUrls (idx + 1) retries
    | some response =>
      match parse_response response with
      | none => findRetry env validUrls (idx + 1) retries
      | some (text, url) =>
        if url ∈ validUrls then (some (text, url), idx + 1)
        else
          match validUrls.find? (fun v => rstripSlash v = rstripSlash url) with
          | some v => (some (text, v), idx + 1)
          | none => findRetry env validUrls (idx + 1) retries

/-- The main for-loop of src/game/engine.py play, with fuel = remaining
clicks (the source iterates click_num over range(MAX_CLICKS)).  A fetch
failure, blank article, or exhausted retry budget falls through to the
unsolved result carrying the moves actually made; after a recorded move the
goal test returns the solved result with click_num + 1 total clicks. -/
def playLoop (env : PlayEnv) (startTitle targetTitle : List Char) :
    Nat → Nat → List Char → List Char → List (List Char) → List GameStep →
    Nat → GameResult
  | 0, _, _, _, path, steps, _ =>
    ⟨startTitle, targetTitle, false, steps.length, steps, path⟩
  | fuel + 1, clickNum, cur, curUrl, path, steps, idx =>
    match env.fetchMarkdown cur with
    | none => ⟨startTitle, targetTitle, false, steps.length, steps, path⟩
    | some md =>
      if md = [] then ⟨startTitle, targetTitle, false, steps.length, steps, path⟩
      else
        let validLinks := extract_links_from_markdown md
        let validUrls := validLinks.map (·.2)
        match findRetry env validUrls idx 3 with
        | (none, _) => ⟨startTitle, targetTitle, false, steps.length, steps, path⟩
        | (some (text, url), idx2) =>
          let nextTitle := title_from_url url
          let step : GameStep :=
            ⟨clickNum, cur, curUrl, mdLink text url, nextTitle, url⟩
          let steps2 := steps ++ [step]
          let path2 := path ++ [nextTitle]
          if titles_match nextTitle targetTitle then
            ⟨startTitle, targetTitle, true, clickNum + 1, steps2, path2⟩
          else
            playLoop env startTitle targetTitle fuel (clickNum + 1) nextTitle
              url path2 steps2 idx2

/-- src/game/engine.py WikiGameEngine.play for one attempt: start at the
configured article and its canonical URL, with the start title on the path. -/
def play (env : PlayEnv) (start_title target_title : List Char) : GameResult :=
  playLoop env start_title target_title MAX_CLICKS 0 start_title
    (WIKIPEDIA_BASE_URL ++ pyreplace ' ' '_' start_title)
    [start_title] [] 0

/-! ## Metrics and attempt runner (src/benchmark/metrics.py, attempt.py) -/

/-- src/benchmark/metrics.py StepMetrics. -/
structure StepMetrics where
  step_index : Nat
  remaining_distance_before : Nat
  remaining_distance_after : Nat
  step_direction : List Char
deriving Repr, DecidableEq

/-- src/benchmark/metrics.py AttemptMetrics. -/
structure AttemptMetrics where
  model_id : List Char
  attempt_id : Nat
  start_title : List Char
  target_title : List Char
  solved : Bool
  total_clicks : Nat
  best_path_length : Nat
  steps : List StepMetrics
  trimmed_included : Bool := false
deriving Repr, DecidableEq

/-- src/benchmark/metrics.py AttemptMetrics.effective_clicks: clicks for
ranking; failures count as MAX_CLICKS. -/
def effective_clicks (a : AttemptMetrics) : Nat :=
  if a.solved then a.total_clicks else MAX_CLICKS

/-- The step-scoring loop of src/benchmark/attempt.py run_attempt: walk the
recorded game steps; the first remaining distance before is queried at the
start title, every later one is chained from the previous remaining distance
after, and each remaining distance after is queried at the chosen target. -/
def stepMetricsAux (dist : List Char → Nat) :
    Nat → List GameStep → List StepMetrics
  | _, [] => []
  | before, s :: rest =>
    let after := dist s.chosen_target_title
    ⟨s.step_index, before, after, classify_step before after⟩ ::
      stepMetricsAux dist after rest

def stepMetricsOf (dist : List Char → Nat) (start_title : List Char)
    (steps : List GameStep) : List StepMetrics :=
  stepMetricsAux dist (dist start_title) steps

/-- src/benchmark/attempt.py run_attempt: compute the best path when no
precomputed length is supplied, play the game, score the recorded steps, and
assemble the attempt metrics; the unsolved total-click count is replaced by
MAX_CLICKS in the assembled record.  The prompt-prefix construction (tips and
peer pressure) only alters the policy prompt, which the chat oracle
abstracts. -/
def run_attempt (env : PlayEnv) (linkSets : List Char → List (List Char))
    (model_id : List Char) (attempt_id : Nat)
    (start_title target_title : List Char)
    (best_path_length? : Option Nat) : AttemptMetrics :=
  let best :=
    match best_path_length? with
    | some b => b
    | none => compute_shortest_path linkSets start_title target_title
  let result := play env start_title target_title
  let steps := stepMetricsOf
    (fun t => get_remaining_distance linkSets t target_title)
    start_title result.steps
  { model_id := model_id
    attempt_id := attempt_id
    start_title := start_title
    target_title := target_title
    solved := result.solved
    total_clicks := if result.solved then result.total_clicks else MAX_CLICKS
    best_path_length := best
    steps := steps }

/-- The effective-clicks ordering used as the Python sort key. -/
def effLE (a b : AttemptMetrics) : Prop :=
  effective_clicks a ≤ effective_clicks b

instance : DecidableRel effLE := fun _ _ => Nat.decLe _ _

instance : IsTotal AttemptMetrics effLE := ⟨fun _ _ => Nat.le_total _ _⟩

instance : IsTrans AttemptMetrics effLE := ⟨fun _ _ _ => Nat.le_trans⟩

/-- Python sorted with an ordering key, modelled by insertion sort with a
nonstrict comparison (insert before the first strictly larger run): both are
stable sorts over a total preorder, and the stable sort of a list is unique,
so they agree elementwise with CPython sorted. -/
def pySortByEff (attempts : List AttemptMetrics) : List AttemptMetrics :=
  List.insertionSort effLE attempts

/-- Python negative-stop slice l[:-k]: everything but the last k elements
for positive k, and the empty list for k = 0. -/
def pyNegSlice (k : Nat) (l : List AttemptMetrics) : List AttemptMetrics :=
  if k = 0 then [] else l.take (l.length - k)

/-- src/benchmark/metrics.py ModelMetrics.compute_trimmed_set: sort by
effective clicks, best first, and drop the worst dropCount attempts when
more than dropCount exist (the configuration fixes dropCount to
TRIMMED_DROP_COUNT = 3). -/
def compute_trimmed_set (dropCount : Nat)
    (attempts : List AttemptMetrics) : List AttemptMetrics :=
  let sortedAttempts := pySortByEff attempts
  if dropCount < sortedAttempts.length then pyNegSlice dropCount sortedAttempts
  else sortedAttempts

/-- statistics.median on rationals: the middle element of the sorted values,
or the mean of the two middle elements.  Python floats are modelled by exact
rationals; the default 0 of getD is unreachable because every caller guards
against an empty list, as the source does. -/
def pymedian (l : List ℚ) : ℚ :=
  let s := List.insertionSort (· ≤ ·) l
  let n := s.length
  if n % 2 = 1 then s.getD (n / 2) 0
  else (s.getD (n / 2 - 1) 0 + s.getD (n / 2) 0) / 2

/-- The statistics fields of src/benchmark/metrics.py ModelMetrics set by
compute_statistics, together with the trimmed set it selects. -/
structure ModelStats where
  trimmed_attempts : List AttemptMetrics
  median_clicks : ℚ
  median_best_path : ℚ
  forward_pct : ℚ
  neutral_pct : ℚ
  backwards_pct : ℚ
  solve_rate : ℚ
deriving Repr, DecidableEq

/-- src/benchmark/metrics.py ModelMetrics.compute_statistics: recompute the
trimmed set and, when it is nonempty, the medians of effective clicks and
best-path lengths, the solve rate, and the direction percentages over all
steps of the trimmed set; an empty trimmed set, or no steps, leaves the
corresponding fields at their 0.0 defaults. -/
def compute_statistics (dropCount : Nat)
    (attempts : List AttemptMetrics) : ModelStats :=
  let trimmed := compute_trimmed_set dropCount attempts
  if trimmed = [] then ⟨trimmed, 0, 0, 0, 0, 0, 0⟩
  else
    let median_clicks := pymedian (trimmed.map fun a => (effective_clicks a : ℚ))
    let median_best_path := pymedian (trimmed.map fun a => (a.best_path_length : ℚ))
    let solved_count := (trimmed.filter fun a => a.solved).length
    let solve_rate := (solved_count : ℚ) / (trimmed.length : ℚ) * 100
    let allSteps := trimmed.flatMap fun a => a.steps
    if allSteps = [] then
      ⟨trimmed, median_clicks, median_best_path, 0, 0, 0, solve_rate⟩
    else
      let total := (allSteps.length : ℚ)
      let fw := ((allSteps.filter fun s => s.step_direction = strL "forward").length : ℚ)
      let nt := ((allSteps.filter fun s => s.step_direction = strL "neutral").length : ℚ)
      let bw := ((allSteps.filter fun s => s.step_direction = strL "backwards").length : ℚ)
      ⟨trimmed, median_clicks, median_best_path,
        fw / total * 100, nt / total * 100, bw / total * 100, solve_rate⟩

/-! ## Orchestrator result collection (src/benchmark/orchestrator.py) -/

/-- src/benchmark/orchestrator.py run-single-attempt error isolation: the
attempt runner outcome is either a metrics record or a raised exception; the
surrounding try/except converts any exception to an absent result. -/
def runSingleAttempt {E : Type} (outcome : Except E AttemptMetrics) :
    Option AttemptMetrics :=
  match outcome with
  | Except.ok a => some a
  | Except.error _ => none

/-- src/benchmark/metrics.py BenchmarkMetrics.add_attempt: the per-model
attempt lists, keyed by model id in first-seen order (a Python dict is an
insertion-ordered map). -/
def add_attempt (models : List (List Char × List AttemptMetrics))
    (a : AttemptMetrics) : List (List Char × List AttemptMetrics) :=
  if models.any (fun p => p.1 = a.model_id) then
    models.map fun p => if p.1 = a.model_id then (p.1, p.2 ++ [a]) else p
  else models ++ [(a.model_id, [a])]

/-- The result-collection loop of src/benchmark/orchestrator.py
run_benchmark: every non-absent result is folded into the aggregate in
completion order. -/
def collectResults (results : List (Option AttemptMetrics)) :
    List (List Char × List AttemptMetrics) :=
  results.foldl
    (fun m r => match r with | none => m | some a => add_attempt m a) []

/-- A full batch: run every outcome through the per-attempt error isolation
and collect what remains. -/
def collectOutcomes {E : Type} (outcomes : List (Except E AttemptMetrics)) :
    List (List Char × List AttemptMetrics) :=
  collectResults (outcomes.map runSingleAttempt)

/-! ## Claim theorems -/

/-- C9: the step-direction classification is total and mutually exclusive:
it always returns one of forward, neutral, backwards, with forward exactly
when the distance decreased, backwards exactly when it increased, and
neutral exactly when it is unchanged. -/
theorem classify_step_total_exclusive (b a : Int) :
    (classify_step b a = strL "forward" ∨ classify_step b a = strL "neutral" ∨
      classify_step b a = strL "backwards") ∧
    (classify_step b a = strL "forward" ↔ a < b) ∧
    (classify_step b a = strL "backwards" ↔ b < a) ∧
    (classify_step b a = strL "neutral" ↔ a = b) := by
  unfold classify_step
  by_cases h1 : a < b
  · rw [if_pos h1]
    refine ⟨Or.inl rfl, ?_, ?_, ?_⟩
    · simp [h1]
    · constructor
      · intro he
        exact absurd he (by decide)
      · intro h2
        omega
    · constructor
      · intro he
        exact absurd he (by decide)
      · intro h2
        omega
  · by_cases h2 : a > b
    · rw [if_neg h1, if_pos h2]
      refine ⟨Or.inr (Or.inr rfl), ?_, ?_, ?_⟩
      · constructor
        · intro he
          exact absurd he (by decide)
        · intro h3
          omega
      · simp [h2]
      · constructor
        · intro he
          exact absurd he (by decide)
        · intro h3
          omega
    · rw [if_neg h1, if_neg h2]
      refine ⟨Or.inr (Or.inl rfl), ?_, ?_, ?_⟩
      · constructor
        · intro he
          exact absurd he (by decide)
        · intro h3
          omega
      · constructor
        · intro he
          exact absurd he (by decide)
        · intro h3
          omega
      · constructor
        · intro _
          omega
        · intro _
          rfl

/-- Every value returned by the BFS loop is the sentinel 999 or a depth
successor below the depth bound. -/
theorem bfsLoop_range (linkSets : List Char → List (List Char))
    (target : List Char) (maxDepth : Nat) (queue : List (List Char × Nat))
    (visited : List (List Char)) (pagesExplored maxPages : Nat) :
    bfsLoop linkSets target maxDepth queue visited pagesExplored maxPages = 999 ∨
      (1 ≤ bfsLoop linkSets target maxDepth queue visited pagesExplored maxPages ∧
       bfsLoop linkSets target maxDepth queue visited pagesExplored maxPages ≤ maxDepth) := by
  induction queue, visited, pagesExplored, maxPages using bfsLoop.induct linkSets target maxDepth with
  | case1 visited pagesExplored maxPages =>
    left
    rw [bfsLoop]
  | case2 visited pagesExplored maxPages cur depth rest h hd ih =>
    rw [bfsLoop]
    simpa [h, hd] using ih
  | case3 visited pagesExplored maxPages cur depth rest h hd links htgt =>
    rw [bfsLoop]
    simp only [dif_pos h, if_neg hd, if_pos htgt]
    right
    omega
  | case4 visited pagesExplored maxPages cur depth rest h hd links htgt qv ih =>
    rw [bfsLoop]
    simpa [h, hd, htgt] using ih
  | case5 visited pagesExplored maxPages cur depth rest h =>
    rw [bfsLoop]
    simp [h]

/-- When the target never occurs in any fetched link set, the BFS loop
reports the sentinel. -/
theorem bfsLoop_unreachable (linkSets : List Char → List (List Char))
    (target : List Char) (maxDepth : Nat) (queue : List (List Char × Nat))
    (visited : List (List Char)) (pagesExplored maxPages : Nat)
    (hun : ∀ x, target ∉ linkSets x) :
    bfsLoop linkSets target maxDepth queue visited pagesExplored maxPages = 999 := by
  induction queue, visited, pagesExplored, maxPages using bfsLoop.induct linkSets target maxDepth with
  | case1 visited pagesExplored maxPages =>
    rw [bfsLoop]
  | case2 visited pagesExplored maxPages cur depth rest h hd ih =>
    rw [bfsLoop]
    simpa [h, hd] using ih
  | case3 visited pagesExplored maxPages cur depth rest h hd links htgt =>
    exact absurd htgt (hun cur)
  | case4 visited pagesExplored maxPages cur depth rest h hd links htgt qv ih =>
    rw [bfsLoop]
    simpa [h, hd, htgt] using ih
  | case5 visited pagesExplored maxPages cur depth rest h =>
    rw [bfsLoop]
    simp [h]

/-- Case split shared by the range claims about compute_shortest_path. -/
theorem csp_cases (linkSets : List Char → List (List Char))
    (s t : List Char) (maxDepth : Nat) :
    (compute_shortest_path linkSets s t maxDepth = 0 ↔
      normalizeT s = normalizeT t) ∧
    (compute_shortest_path linkSets s t maxDepth = 0 ∨
      (1 ≤ compute_shortest_path linkSets s t maxDepth ∧
       compute_shortest_path linkSets s t maxDepth ≤ maxDepth) ∨
      compute_shortest_path linkSets s t maxDepth = 999) := by
  simp only [compute_shortest_path]
  by_cases h : normalizeT s = normalizeT t
  · simp [h]
  · rw [if_neg h]
    rcases bfsLoop_range linkSets (normalizeT t) maxDepth
        [(normalizeT s, 0)] [normalizeT s] 0 100 with hr | hr
    · refine ⟨?_, Or.inr (Or.inr hr)⟩
      rw [hr]
      constructor
      · intro h0
        exact absurd h0 (by decide)
      · intro he
        exact absurd he h
    · refine ⟨?_, Or.inr (Or.inl hr)⟩
      constructor
      · intro h0
        omega
      · intro he
        exact absurd he h

/-- C10: compute_shortest_path returns 0 precisely when the normalized
start and target titles are equal, and every return value is 0, an integer
between 1 and the depth bound, or the sentinel 999. -/
theorem compute_shortest_path_return_values
    (linkSets : List Char → List (List Char)) (s t : List Char)
    (maxDepth : Nat) :
    (compute_shortest_path linkSets s t maxDepth = 0 ↔
      normalizeT s = normalizeT t) ∧
    (compute_shortest_path linkSets s t maxDepth = 0 ∨
      (1 ≤ compute_shortest_path linkSets s t maxDepth ∧
       compute_shortest_path linkSets s t maxDepth ≤ maxDepth) ∨
      compute_shortest_path linkSets s t maxDepth = 999) :=
  csp_cases linkSets s t maxDepth

/-- C5: a bounded-failure shortest-path query yields the sentinel 999 as a
normal return value.  The first part states totality in value terms: every
query returns 0, a found distance within the depth bound, or 999, never an
error.  The second part: whenever the target cannot be found (distinct
normalized titles and the target key in no fetched link set), the returned
value is exactly the sentinel 999. -/
theorem compute_shortest_path_sentinel
    (linkSets : List Char → List (List Char)) (s t : List Char)
    (maxDepth : Nat) :
    (compute_shortest_path linkSets s t maxDepth = 0 ∨
      (1 ≤ compute_shortest_path linkSets s t maxDepth ∧
       compute_shortest_path linkSets s t maxDepth ≤ maxDepth) ∨
      compute_shortest_path linkSets s t maxDepth = 999) ∧
    (normalizeT s ≠ normalizeT t →
      (∀ x, normalizeT t ∉ linkSets x) →
      compute_shortest_path linkSets s t maxDepth = 999) := by
  refine ⟨(csp_cases linkSets s t maxDepth).2, ?_⟩
  intro hne hun
  simp only [compute_shortest_path]
  rw [if_neg hne]
  exact bfsLoop_unreachable linkSets (normalizeT t) maxDepth
    [(normalizeT s, 0)] [normalizeT s] 0 100 hun

/-- Witness for C5 at a concrete unreachable query: an empty link graph and
distinct titles produce the sentinel. -/
theorem compute_shortest_path_sentinel_witness :
    compute_shortest_path (fun _ => []) (strL "Dog") (strL "Animal") 5 = 999 :=
  (compute_shortest_path_sentinel (fun _ => []) (strL "Dog")
      (strL "Animal") 5).2 (by decide) (fun x h => by cases h)

/-- The step-scoring loop produces one metric per recorded game step. -/
theorem stepMetricsAux_length (dist : List Char → Nat) (before : Nat)
    (steps : List GameStep) :
    (stepMetricsAux dist before steps).length = steps.length := by
  induction steps generalizing before with
  | nil => rfl
  | cons s rest ih =>
    simp [stepMetricsAux, ih]

/-- The first metric of a nonempty step-scoring run carries the chained
distance it was seeded with. -/
theorem stepMetricsAux_head (dist : List Char → Nat) (before : Nat)
    (s : GameStep) (rest : List GameStep) :
    ((stepMetricsAux dist before (s :: rest)).getD 0
        ⟨0, 0, 0, []⟩).remaining_distance_before = before := by
  simp [stepMetricsAux]

/-- Adjacent chaining of the step-scoring loop: each remaining distance
after propagates into the next remaining distance before. -/
theorem stepMetricsAux_chain (dist : List Char → Nat) (before : Nat)
    (steps : List GameStep) (i : Nat)
    (h : i + 1 < (stepMetricsAux dist before steps).length) :
    ((stepMetricsAux dist before steps).getD (i + 1)
        ⟨0, 0, 0, []⟩).remaining_distance_before =
      ((stepMetricsAux dist before steps).getD i
        ⟨0, 0, 0, []⟩).remaining_distance_after := by
  induction steps generalizing before i with
  | nil => simp [stepMetricsAux] at h
  | cons s rest ih =>
    match i with
    | 0 =>
      rw [stepMetricsAux_length] at h
      simp only [stepMetricsAux, List.getD_cons_succ, List.getD_cons_zero]
      match rest, h with
      | r :: rs, _ =>
        exact stepMetricsAux_head dist _ r rs
    | j + 1 =>
      simp only [stepMetricsAux, List.getD_cons_succ]
      apply ih
      simpa [stepMetricsAux] using h

/-- A game whose unsolved result reports the moves actually made: the loop
falls through only at a fuel bound, fetch failure, blank article, or
exhausted retries, and each of those results carries the accumulated step
list and its length. -/
theorem playLoop_unsolved (env : PlayEnv) (s t : List Char) (fuel : Nat) :
    ∀ (clickNum : Nat) (cur curUrl : List Char) (path : List (List Char))
      (steps : List GameStep) (idx : Nat),
      (playLoop env s t fuel clickNum cur curUrl path steps idx).solved = false →
      (playLoop env s t fuel clickNum cur curUrl path steps idx).total_clicks =
        (playLoop env s t fuel clickNum cur curUrl path steps idx).steps.length := by
  induction fuel with
  | zero =>
    intro clickNum cur curUrl path steps idx _
    rfl
  | succ n ih =>
    intro clickNum cur curUrl path steps idx hsolved
    rw [playLoop] at hsolved ⊢
    cases hf : env.fetchMarkdown cur with
    | none => simp [hf]
    | some md =>
      simp only [hf] at hsolved ⊢
      by_cases hmd : md = []
      · simp [hmd]
      · simp only [if_neg hmd] at hsolved ⊢
        rcases hfr : findRetry env
            ((extract_links_from_markdown md).map (·.2)) idx 3 with ⟨o, idx2⟩
        rw [hfr] at hsolved ⊢
        match o with
        | none => rfl
        | some (text, url) =>
          simp only at hsolved ⊢
          by_cases hm : titles_match (title_from_url url) t = true
          · rw [if_pos hm] at hsolved
            simp at hsolved
          · rw [if_neg hm] at hsolved ⊢
            exact ih _ _ _ _ _ _ hsolved

/-- A solved game always records at least one move: the solved result is
only built after a step is appended, with click count one past the step
index. -/
theorem playLoop_solved (env : PlayEnv) (s t : List Char) (fuel : Nat) :
    ∀ (clickNum : Nat) (cur curUrl : List Char) (path : List (List Char))
      (steps : List GameStep) (idx : Nat),
      (playLoop env s t fuel clickNum cur curUrl path steps idx).solved = true →
      1 ≤ (playLoop env s t fuel clickNum cur curUrl path steps idx).total_clicks ∧
      (playLoop env s t fuel clickNum cur curUrl path steps idx).steps ≠ [] := by
  induction fuel with
  | zero =>
    intro clickNum cur curUrl path steps idx hsolved
    simp [playLoop] at hsolved
  | succ n ih =>
    intro clickNum cur curUrl path steps idx hsolved
    rw [playLoop] at hsolved ⊢
    cases hf : env.fetchMarkdown cur with
    | none =>
      rw [hf] at hsolved
      simp at hsolved
    | some md =>
      simp only [hf] at hsolved ⊢
      by_cases hmd : md = []
      · rw [if_pos hmd] at hsolved
        simp at hsolved
      · rw [if_neg hmd] at hsolved ⊢
        rcases hfr : findRetry env
            ((extract_links_from_markdown md).map (·.2)) idx 3 with ⟨o, idx2⟩
        rw [hfr] at hsolved ⊢
        match o with
        | none => simp at hsolved
        | some (text, url) =>
          simp only at hsolved ⊢
          by_cases hm : titles_match (title_from_url url) t = true
          · rw [if_pos hm]
            constructor
            · simp
            · simp
          · rw [if_neg hm] at hsolved ⊢
            exact ih _ _ _ _ _ _ hsolved

/-- C1 amended: for every normalization-equal pair the shortest-path
computation returns 0; the game engine, however, performs no start-equals-
target precheck, so an attempt on such a pair still fetches content and
queries the policy, and any solved result carries at least one recorded
move (never zero moves). -/
theorem equal_pair_distance_zero_and_no_precheck :
    (∀ (linkSets : List Char → List (List Char)) (s t : List Char)
        (maxDepth : Nat), normalizeT s = normalizeT t →
        compute_shortest_path linkSets s t maxDepth = 0) ∧
    (∀ (env : PlayEnv) (s t : List Char),
        (play env s t).solved = true →
        1 ≤ (play env s t).total_clicks ∧ (play env s t).steps ≠ []) := by
  constructor
  · intro linkSets s t maxDepth h
    simp [compute_shortest_path, h]
  · intro env s t
    exact playLoop_solved env s t MAX_CLICKS 0 s _ [s] [] 0

/-- The concrete counterexample environment for C1: the start article body
contains a link back to itself and the policy clicks it. -/
def envC1 : PlayEnv where
  fetchMarkdown := fun cur =>
    if cur = strL "Loop" then some (strL "See [Loop](/wiki/Loop).") else none
  chat := fun _ => some (strL "[Loop](/wiki/Loop)")

/-- C1 counterexample: on the pair whose start equals its target the engine
is not immediately solved with zero moves; it queries the policy and only
solves after recording one move. -/
theorem play_equal_pair_not_immediate :
    (play envC1 (strL "Loop") (strL "Loop")).solved = true ∧
    (play envC1 (strL "Loop") (strL "Loop")).total_clicks = 1 ∧
    (play envC1 (strL "Loop") (strL "Loop")).steps.length = 1 := by
  decide

/-- Witness for C1 amended at concrete inputs: a normalization-equal pair
has distance 0, and the solved equal-pair game of envC1 has a positive
click count and a nonempty step list. -/
theorem equal_pair_distance_zero_and_no_precheck_witness :
    compute_shortest_path (fun _ => []) (strL "Dog_") (strL "dog") 5 = 0 ∧
    (1 ≤ (play envC1 (strL "Loop") (strL "Loop")).total_clicks ∧
      (play envC1 (strL "Loop") (strL "Loop")).steps ≠ []) :=
  ⟨equal_pair_distance_zero_and_no_precheck.1 (fun _ => []) (strL "Dog_")
      (strL "dog") 5 (by decide),
   equal_pair_distance_zero_and_no_precheck.2 envC1 (strL "Loop")
      (strL "Loop") (by decide)⟩

/-- C2 amended: the game loop itself reports the moves actually made for
unsolved games, but the attempt runner replaces the unsolved total click
count by the MAX_CLICKS ceiling when assembling AttemptMetrics, so at the
metrics level the reported count for unsolved attempts is the ceiling and
the ranking cost coincides with the reported count. -/
theorem unsolved_total_clicks_levels :
    (∀ (env : PlayEnv) (s t : List Char),
        (play env s t).solved = false →
        (play env s t).total_clicks = (play env s t).steps.length) ∧
    (∀ (env : PlayEnv) (linkSets : List Char → List (List Char))
        (mid : List Char) (aid : Nat) (s t : List Char) (bp : Option Nat),
        ((run_attempt env linkSets mid aid s t bp).solved = false →
          (run_attempt env linkSets mid aid s t bp).total_clicks = MAX_CLICKS) ∧
        effective_clicks (run_attempt env linkSets mid aid s t bp) =
          (run_attempt env linkSets mid aid s t bp).total_clicks) := by
  constructor
  · intro env s t
    exact playLoop_unsolved env s t MAX_CLICKS 0 s _ [s] [] 0
  · intro env linkSets mid aid s t bp
    constructor
    · intro hsolved
      simp only [run_attempt] at hsolved ⊢
      rw [if_neg (by simp [hsolved])]
    · simp only [run_attempt, effective_clicks]
      cases hres : (play env s t).solved <;> simp [hres]

/-- The concrete counterexample environment for C2 and the C4 witness: two
valid moves are made, then the third page fetch fails, ending the game
unsolved after two recorded steps. -/
def envC2 : PlayEnv where
  fetchMarkdown := fun cur =>
    if cur = strL "A" then some (strL "Go [B](/wiki/B) now")
    else if cur = strL "B" then some (strL "Go [C](/wiki/C) now")
    else none
  chat := fun i =>
    if i = 0 then some (strL "[B](/wiki/B)") else some (strL "[C](/wiki/C)")

/-- The attempt metrics of the two-move unsolved game of envC2. -/
def attemptC2 : AttemptMetrics :=
  run_attempt envC2 (fun _ => []) (strL "m") 0 (strL "A") (strL "Z") (some 3)

/-- C2 counterexample: an unsolved attempt that made two moves reports
total clicks 30 (the ceiling) in its attempt metrics, not the length 2 of
its recorded step list. -/
theorem attempt_total_clicks_clamped :
    attemptC2.solved = false ∧
    attemptC2.steps.length = 2 ∧
    attemptC2.total_clicks = 30 ∧
    (play envC2 (strL "A") (strL "Z")).total_clicks = 2 := by
  refine ⟨by decide, ?_, by decide, by decide⟩
  show (stepMetricsOf (fun x => get_remaining_distance (fun _ => []) x (strL "Z"))
      (strL "A") (play envC2 (strL "A") (strL "Z")).steps).length = 2
  rw [stepMetricsOf, stepMetricsAux_length]
  decide

/-- Witness for C2 amended at the concrete unsolved game of envC2. -/
theorem unsolved_total_clicks_levels_witness :
    (play envC2 (strL "A") (strL "Z")).total_clicks =
      (play envC2 (strL "A") (strL "Z")).steps.length ∧
    (run_attempt envC2 (fun _ => []) (strL "m") 0 (strL "A") (strL "Z")
        (some 3)).total_clicks = MAX_CLICKS :=
  ⟨unsolved_total_clicks_levels.1 envC2 (strL "A") (strL "Z") (by decide),
   (unsolved_total_clicks_levels.2 envC2 (fun _ => []) (strL "m") 0 (strL "A")
      (strL "Z") (some 3)).1 (by decide)⟩

/-- C4: each computed attempt carries exactly one step metric per recorded
game step, and adjacent step metrics chain: the remaining distance after
step i is the remaining distance before step i + 1. -/
theorem step_metrics_count_and_chain (env : PlayEnv)
    (linkSets : List Char → List (List Char)) (mid : List Char) (aid : Nat)
    (s t : List Char) (bp : Option Nat) :
    (run_attempt env linkSets mid aid s t bp).steps.length =
      (play env s t).steps.length ∧
    ∀ i, i + 1 < (run_attempt env linkSets mid aid s t bp).steps.length →
      ((run_attempt env linkSets mid aid s t bp).steps.getD (i + 1)
          ⟨0, 0, 0, []⟩).remaining_distance_before =
        ((run_attempt env linkSets mid aid s t bp).steps.getD i
          ⟨0, 0, 0, []⟩).remaining_distance_after := by
  constructor
  · show (stepMetricsOf (fun x => get_remaining_distance linkSets x t) s
        (play env s t).steps).length = (play env s t).steps.length
    rw [stepMetricsOf, stepMetricsAux_length]
  · intro i hi
    exact stepMetricsAux_chain _ _ _ i hi

/-- Witness for C4 at the concrete two-move attempt of envC2, checking the
chain between the two step metrics. -/
theorem step_metrics_count_and_chain_witness :
    attemptC2.steps.length = (play envC2 (strL "A") (strL "Z")).steps.length ∧
    (attemptC2.steps.getD 1 ⟨0, 0, 0, []⟩).remaining_distance_before =
      (attemptC2.steps.getD 0 ⟨0, 0, 0, []⟩).remaining_distance_after :=
  ⟨(step_metrics_count_and_chain envC2 (fun _ => []) (strL "m") 0 (strL "A")
      (strL "Z") (some 3)).1,
   (step_metrics_count_and_chain envC2 (fun _ => []) (strL "m") 0 (strL "A")
      (strL "Z") (some 3)).2 0 (by decide)⟩

/-- Folding optional results equals folding the present results only. -/
theorem collect_eq_filterMap (results : List (Option AttemptMetrics))
    (acc : List (List Char × List AttemptMetrics)) :
    results.foldl
        (fun m r => match r with | none => m | some a => add_attempt m a) acc =
      (results.filterMap id).foldl add_attempt acc := by
  induction results generalizing acc with
  | nil => rfl
  | cons r rest ih =>
    cases r with
    | none => simp [ih]
    | some a => simp [ih]

/-- C8: the orchestrator converts any attempt-level exception into an
absent result: the collected aggregate is exactly the fold of the
successful outcomes (errors contribute nothing to any model), and removing
an error outcome from anywhere in the batch leaves the aggregate unchanged,
so no exception aborts or perturbs the processing of the remaining
attempts. -/
theorem exceptions_isolated_and_omitted {E : Type} :
    (∀ outcomes : List (Except E AttemptMetrics),
      collectOutcomes outcomes =
        (outcomes.filterMap runSingleAttempt).foldl add_attempt []) ∧
    (∀ (xs ys : List (Except E AttemptMetrics)) (e : E),
      collectOutcomes (xs ++ Except.error e :: ys) =
        collectOutcomes (xs ++ ys)) := by
  constructor
  · intro outcomes
    rw [collectOutcomes, collectResults, collect_eq_filterMap]
    congr 1
    induction outcomes with
    | nil => rfl
    | cons o rest ih =>
      cases o with
      | ok a => simp [runSingleAttempt, ih]
      | error e => simp [runSingleAttempt, ih]
  · intro xs ys e
    rw [collectOutcomes, collectOutcomes, collectResults, collectResults]
    rw [List.map_append, List.map_append, List.foldl_append, List.foldl_append]
    simp [runSingleAttempt]

/-- C6: with a positive drop count K (the configuration fixes K = 3), the
trimmed set keeps everything when at most K attempts exist, and otherwise
keeps exactly N - K attempts drawn from the attempt multiset such that
every kept attempt has effective cost at most that of every dropped one:
the kept attempts are the N - K best by effective cost. -/
theorem trimmed_set_drops_worst (K : Nat) (attempts : List AttemptMetrics)
    (hK : 0 < K) :
    (attempts.length ≤ K → (compute_trimmed_set K attempts).Perm attempts) ∧
    (K < attempts.length →
      (compute_trimmed_set K attempts).length = attempts.length - K ∧
      ∃ dropped : List AttemptMetrics,
        dropped.length = K ∧
        (compute_trimmed_set K attempts ++ dropped).Perm attempts ∧
        ∀ a ∈ compute_trimmed_set K attempts, ∀ b ∈ dropped,
          effective_clicks a ≤ effective_clicks b) := by
  have hperm : (pySortByEff attempts).Perm attempts :=
    List.perm_insertionSort effLE attempts
  have hlen : (pySortByEff attempts).length = attempts.length :=
    hperm.length_eq
  have hsorted : List.Sorted effLE (pySortByEff attempts) :=
    List.sorted_insertionSort effLE attempts
  constructor
  · intro hN
    have hg : ¬ K < (pySortByEff attempts).length := by omega
    simp only [compute_trimmed_set, if_neg hg]
    exact hperm
  · intro hN
    have hg : K < (pySortByEff attempts).length := by omega
    have hs : compute_trimmed_set K attempts =
        (pySortByEff attempts).take ((pySortByEff attempts).length - K) := by
      simp only [compute_trimmed_set, if_pos hg, pyNegSlice,
        if_neg (Nat.pos_iff_ne_zero.mp hK)]
    refine ⟨?_, (pySortByEff attempts).drop ((pySortByEff attempts).length - K),
      ?_, ?_, ?_⟩
    · rw [hs]
      simp
      omega
    · simp
      omega
    · rw [hs, List.take_append_drop]
      exact hperm
    · intro a ha b hb
      rw [hs] at ha
      have hpw : ((pySortByEff attempts).take ((pySortByEff attempts).length - K) ++
          (pySortByEff attempts).drop ((pySortByEff attempts).length - K)).Pairwise effLE := by
        rw [List.take_append_drop]
        exact hsorted
      exact (List.pairwise_append.mp hpw).2.2 a ha b hb

/-- A concrete attempt-metrics record used by the trimming and aggregation
examples: empty step list, best path 2, with the given id, solved flag and
click count. -/
def mkAtt (aid : Nat) (solvedFlag : Bool) (clicks : Nat) : AttemptMetrics :=
  { model_id := strL "m", attempt_id := aid, start_title := strL "S",
    target_title := strL "T", solved := solvedFlag, total_clicks := clicks,
    best_path_length := 2, steps := [] }

/-- Witness for C6 at the default drop count 3 over five concrete attempts:
the trimmed set keeps exactly two. -/
theorem trimmed_set_drops_worst_witness :
    (compute_trimmed_set TRIMMED_DROP_COUNT
        [mkAtt 0 true 1, mkAtt 1 true 30, mkAtt 2 false 30, mkAtt 3 false 30,
         mkAtt 4 false 30]).length =
      [mkAtt 0 true 1, mkAtt 1 true 30, mkAtt 2 false 30, mkAtt 3 false 30,
         mkAtt 4 false 30].length - TRIMMED_DROP_COUNT :=
  ((trimmed_set_drops_worst TRIMMED_DROP_COUNT
      [mkAtt 0 true 1, mkAtt 1 true 30, mkAtt 2 false 30, mkAtt 3 false 30,
       mkAtt 4 false 30] (by decide)).2 (by decide)).1

/-- Permutations with pairwise distinct effective costs have the same
stable sort. -/
theorem pySortByEff_eq_of_perm (l1 l2 : List AttemptMetrics)
    (hperm : l1.Perm l2)
    (hdist : l1.Pairwise fun a b => effective_clicks a ≠ effective_clicks b) :
    pySortByEff l1 = pySortByEff l2 := by
  have hp1 : (pySortByEff l1).Perm l1 := List.perm_insertionSort effLE l1
  have hp2 : (pySortByEff l2).Perm l2 := List.perm_insertionSort effLE l2
  have hp : (pySortByEff l1).Perm (pySortByEff l2) :=
    hp1.trans (hperm.trans hp2.symm)
  have hsym : ∀ {x y : AttemptMetrics},
      effective_clicks x ≠ effective_clicks y →
      effective_clicks y ≠ effective_clicks x := fun h => h.symm
  have hd1 : (pySortByEff l1).Pairwise
      fun a b => effective_clicks a ≠ effective_clicks b :=
    (hp1.pairwise_iff hsym).mpr hdist
  have hd2 : (pySortByEff l2).Pairwise
      fun a b => effective_clicks a ≠ effective_clicks b :=
    (hp2.pairwise_iff hsym).mpr ((hperm.pairwise_iff hsym).mp hdist)
  have hs1 : (pySortByEff l1).Pairwise
      fun a b => effective_clicks a < effective_clicks b :=
    ((List.sorted_insertionSort effLE l1).and hd1).imp
      fun h => lt_of_le_of_ne h.1 h.2
  have hs2 : (pySortByEff l2).Pairwise
      fun a b => effective_clicks a < effective_clicks b :=
    ((List.sorted_insertionSort effLE l2).and hd2).imp
      fun h => lt_of_le_of_ne h.1 h.2
  haveI : IsAntisymm AttemptMetrics
      (fun a b => effective_clicks a < effective_clicks b) :=
    ⟨fun a b h1 h2 => absurd (h1.trans h2) (lt_irrefl _)⟩
  exact List.eq_of_perm_of_sorted hp hs1 hs2

/-- C3 amended: recomputing the statistics of the same attempt list always
yields the same values, and the statistics are insensitive to the order in
which attempts were added whenever the effective costs are pairwise
distinct; with ties in effective cost the stable sort can make the trimmed
selection, and hence the statistics, depend on insertion order. -/
theorem aggregation_idempotent_and_order_insensitive (K : Nat)
    (l1 l2 : List AttemptMetrics) (hperm : l1.Perm l2)
    (hdist : l1.Pairwise fun a b => effective_clicks a ≠ effective_clicks b) :
    compute_statistics K l1 = compute_statistics K l1 ∧
    compute_statistics K l1 = compute_statistics K l2 := by
  refine ⟨rfl, ?_⟩
  have hs : pySortByEff l1 = pySortByEff l2 :=
    pySortByEff_eq_of_perm l1 l2 hperm hdist
  simp only [compute_statistics, compute_trimmed_set, hs]

/-- C3 counterexample: two insertion orders of the same five attempts, with
effective-cost ties at the trim boundary, produce different statistics
(solve rate 100 versus 50 on the trimmed set). -/
theorem aggregation_order_dependent_with_ties :
    ([mkAtt 0 true 1, mkAtt 1 true 30, mkAtt 2 false 30, mkAtt 3 false 30,
        mkAtt 4 false 30].Perm
      [mkAtt 0 true 1, mkAtt 2 false 30, mkAtt 1 true 30, mkAtt 3 false 30,
        mkAtt 4 false 30]) ∧
    compute_statistics TRIMMED_DROP_COUNT
        [mkAtt 0 true 1, mkAtt 1 true 30, mkAtt 2 false 30, mkAtt 3 false 30,
          mkAtt 4 false 30] ≠
      compute_statistics TRIMMED_DROP_COUNT
        [mkAtt 0 true 1, mkAtt 2 false 30, mkAtt 1 true 30, mkAtt 3 false 30,
          mkAtt 4 false 30] := by
  constructor
  · decide
  · decide

/-- Witness for C3 amended on two distinct-cost attempts in either order. -/
theorem aggregation_idempotent_and_order_insensitive_witness :
    compute_statistics TRIMMED_DROP_COUNT [mkAtt 0 true 2, mkAtt 1 true 5] =
      compute_statistics TRIMMED_DROP_COUNT [mkAtt 1 true 5, mkAtt 0 true 2] :=
  (aggregation_idempotent_and_order_insensitive TRIMMED_DROP_COUNT
      [mkAtt 0 true 2, mkAtt 1 true 5] [mkAtt 1 true 5, mkAtt 0 true 2]
      (by decide) (by decide)).2

/-- find? returns the first element satisfying the test. -/
theorem find?_first {α : Type} (p : α → Bool) (pre : List α) (m : α)
    (post : List α) (hpre : ∀ x ∈ pre, p x = false) (hm : p m = true) :
    (pre ++ m :: post).find? p = some m := by
  induction pre with
  | nil => simp [List.find?_cons, hm]
  | cons a rest ih =>
    have ha : p a = false := hpre a (by simp)
    simp only [List.cons_append, List.find?_cons, ha]
    exact ih fun x hx => hpre x (by simp [hx])

/-- C7 amended: with zero embedded links parsing fails; with exactly one it
is accepted with the title attribute stripped from its target; with several,
the parser returns the first link whose raw target contains wikipedia.org or
starts with /wiki/ (a looser test than article-reference resolution: it does
not exclude special or meta namespaces, nor non-article wikipedia URLs), and
fails when no link passes that test. -/
theorem parse_response_characterization (resp : List Char) :
    (findLinks (pystrip resp) = [] → parse_response resp = none) ∧
    (∀ t h, findLinks (pystrip resp) = [(t, h)] →
      parse_response resp = some (t, strip_title_attribute h)) ∧
    (2 ≤ (findLinks (pystrip resp)).length →
      ((∀ m ∈ findLinks (pystrip resp), wikiLike m.2 = false) →
        parse_response resp = none) ∧
      (∀ (pre : List (List Char × List Char)) (m : List Char × List Char)
          (post : List (List Char × List Char)),
        findLinks (pystrip resp) = pre ++ m :: post →
        wikiLike m.2 = true →
        (∀ m2 ∈ pre, wikiLike m2.2 = false) →
        parse_response resp = some (m.1, strip_title_attribute m.2))) := by
  refine ⟨?_, ?_, ?_⟩
  · intro h0
    simp [parse_response, h0]
  · intro t h h1
    simp [parse_response, h1]
  · intro hlen
    rcases hms : findLinks (pystrip resp) with _ | ⟨a, _ | ⟨b, rest⟩⟩
    · rw [hms] at hlen
      simp at hlen
    · rw [hms] at hlen
      simp at hlen
    · constructor
      · intro hall
        have hf : (a :: b :: rest).find? (fun m => wikiLike m.2) = none := by
          rw [List.find?_eq_none]
          intro x hx
          simp [hall x hx]
        simp [parse_response, hms, hf]
      · intro pre m post heq hm hpre
        have hf : (a :: b :: rest).find? (fun m => wikiLike m.2) = some m := by
          rw [heq]
          exact find?_first _ pre m post (fun x hx => hpre x hx) hm
        simp [parse_response, hms, hf]

/-- C7 counterexample: with two embedded links whose first target is in the
Special namespace, the fallback returns the first wikipedia-looking link,
even though its target does not resolve to a recognized article reference
while the second one does. -/
theorem parse_response_accepts_nonarticle_first :
    parse_response (strL "[A](/wiki/Special:Random) [B](/wiki/Animal)") =
      some (strL "A", strL "/wiki/Special:Random") ∧
    normalize_wikipedia_url (strL "/wiki/Special:Random") = none ∧
    normalize_wikipedia_url (strL "/wiki/Animal") = some (strL "Animal") := by
  refine ⟨by decide, by decide, by decide⟩

/-- Witness for C7 amended at the single-link response of Scenario B. -/
theorem parse_response_characterization_witness :
    parse_response (strL "[Animal](https://site/wiki/Animal)") =
      some (strL "Animal", strL "https://site/wiki/Animal") := by
  have h := (parse_response_characterization
      (strL "[Animal](https://site/wiki/Animal)")).2.1
      (strL "Animal") (strL "https://site/wiki/Animal") (by decide)
  have hs : strip_title_attribute (strL "https://site/wiki/Animal") =
      strL "https://site/wiki/Animal" := by decide
  rw [hs] at h
  exact h
